import Mathlib

/-!
Shallow embedding of `mealie/db/models/recipe/ingredient.py`: the three
ingredient-vocabulary entities (`IngredientUnitModel`, `IngredientFoodModel`,
`RecipeIngredientModel`), their normalized shadow columns, the SQLAlchemy
`"set"` event listeners that keep the shadows synchronized, and the
`tableargs` index/constraint lists built inside each `__init__` depending on
the bound engine's name.
-/

namespace Mealie

/-- Raw user-facing text values. -/
abbrev Text := String

/-- ASCII case folding of a single character (uppercase letters are mapped to
lowercase, codepoints 65..90 shifted by 32). -/
def foldChar (c : Char) : Char :=
  if 65 ≤ c.toNat ∧ c.toNat ≤ 90 then Char.ofNat (c.toNat + 32) else c

/-- Modelled from the spec: the `normalize` classmethod lives on the model base
(`mealie.db.models._model_base`), outside the given sources.  Spec section 4.1
leaves the exact transformation to the engineer (case folding, diacritic
stripping, whitespace collapsing are all optional), requiring only a
deterministic, idempotent, side-effect-free text-to-text function.  We model it
as ASCII case folding. -/
def normalize (s : Text) : Text :=
  String.mk (s.data.map foldChar)

/-- Lifting of a normalizer to nullable text: null maps to null (spec 4.1). -/
def NormalizeWith (nf : Text → Text) : Option Text → Option Text :=
  Option.map nf

/-- The spec's `Normalize : Text | null -> Text | null`, instantiated with the
modelled normalizer. -/
def Normalize : Option Text → Option Text :=
  NormalizeWith normalize

/-- One entry of the `tableargs` list built in a model constructor: either
`sa.UniqueConstraint(*columns, name=...)` or
`sa.Index(name, *columns, unique=..., postgresql_using=..., postgresql_ops=...)`.
A plain index has `postgresql_using = none` and empty ops. -/
inductive TableArg where
  | uniqueConstraint (columns : List String) (name : String)
  | index (name : String) (columns : List String) (unique : Bool)
      (postgresql_using : Option String) (postgresql_ops : List (String × String))
  deriving DecidableEq, Repr

/-- The name of an emitted table argument (index name or constraint name). -/
def TableArg.argName : TableArg → String
  | .uniqueConstraint _ n => n
  | .index n _ _ _ _ => n

/-- Whether a table argument is a trigram-accelerated index (gin with the
trigram operator class), on any column. -/
def TableArg.isTrigramIndex : TableArg → Bool
  | .index _ _ _ pu ops => pu == some "gin" && ops.any (fun p => p.2 == "gin_trgm_ops")
  | _ => false

/-- Whether a table argument is a plain (non-accelerated) non-unique index on
exactly the column `f`. -/
def TableArg.isPlainIndexOn (f : String) : TableArg → Bool
  | .index _ cols u pu _ => cols == [f] && u == false && pu == none
  | _ => false

/-- Whether a table argument is a trigram-accelerated index on exactly the
column `f`. -/
def TableArg.isTrigramIndexOn (f : String) : TableArg → Bool
  | .index _ cols _ pu ops =>
      cols == [f] && pu == some "gin" && ops.any (fun p => p.2 == "gin_trgm_ops")
  | _ => false

/-- The `tableargs` list built by `IngredientUnitModel.__init__`
(ingredient.py lines 48-86) for a connection whose bound engine reports the
name `bindName`: unconditional unique constraint and plain indexes, plus the
gin trigram indexes when the engine is postgresql. -/
def unitTableArgs (bindName : String) : List TableArg :=
  let base : List TableArg :=
    [ .uniqueConstraint ["name", "group_id"] "ingredient_units_name_group_id_key",
      .index "ix_ingredient_units_name_normalized" ["name_normalized"] false none [],
      .index "ix_ingredient_units_abbreviation_normalized" ["abbreviation_normalized"]
        false none [] ]
  if bindName = "postgresql" then
    base ++
      [ .index "ix_ingredient_units_name_normalized_gin" ["name_normalized"] false
          (some "gin") [("name_normalized", "gin_trgm_ops")],
        .index "ix_ingredient_units_abbreviation_normalized_gin"
          ["abbreviation_normalized"] false
          (some "gin") [("abbreviation_normalized", "gin_trgm_ops")] ]
  else base

/-- The `tableargs` list built by `IngredientFoodModel.__init__`
(ingredient.py lines 116-140). -/
def foodTableArgs (bindName : String) : List TableArg :=
  let base : List TableArg :=
    [ .uniqueConstraint ["name", "group_id"] "ingredient_foods_name_group_id_key",
      .index "ix_ingredient_foods_name_normalized" ["name_normalized"] false none [] ]
  if bindName = "postgresql" then
    base ++
      [ .index "ix_ingredient_foods_name_normalized_gin" ["name_normalized"] false
          (some "gin") [("name_normalized", "gin_trgm_ops")] ]
  else base

/-- The `tableargs` list built by `RecipeIngredientModel.__init__`
(ingredient.py lines 177-213).  Note the source at line 203: the second gin
index is declared over the column `"original_text"` (the raw column), even
though its name and its `postgresql_ops` key both say
`original_text_normalized`. -/
def recipeIngredientTableArgs (bindName : String) : List TableArg :=
  let base : List TableArg :=
    [ .index "ix_recipes_ingredients_note_normalized" ["note_normalized"] false none [],
      .index "ix_recipes_ingredients_original_text_normalized" ["original_text_normalized"]
        false none [] ]
  if bindName = "postgresql" then
    base ++
      [ .index "ix_recipes_ingredients_note_normalized_gin" ["note_normalized"] false
          (some "gin") [("note_normalized", "gin_trgm_ops")],
        .index "ix_recipes_ingredients_original_text_normalized_gin" ["original_text"] false
          (some "gin") [("original_text_normalized", "gin_trgm_ops")] ]
  else base

/-- State of one `IngredientUnitModel` row: the columns relevant to
normalization and indexing, plus the per-instance `__table_args__` tuple set at
the end of `__init__`.  Opaque ids (GUIDs) are modelled as naturals. -/
structure IngredientUnitModel where
  group_id : Nat
  name : Option Text
  description : Option Text
  abbreviation : Option Text
  use_abbreviation : Option Bool
  fraction : Option Bool
  name_normalized : Option Text
  abbreviation_normalized : Option Text
  table_args : List TableArg
  deriving DecidableEq, Repr

/-- State of one `IngredientFoodModel` row. -/
structure IngredientFoodModel where
  group_id : Nat
  name : Option Text
  description : Option Text
  label_id : Option Nat
  name_normalized : Option Text
  table_args : List TableArg
  deriving DecidableEq, Repr

/-- State of one `RecipeIngredientModel` row.  The field `orginal_text`
(misspelled, no second i) models the stray plain Python instance attribute
created by the assignment `self.orginal_text = ...` at ingredient.py line 175;
it is not a mapped column and has no event listener. -/
structure RecipeIngredientModel where
  position : Option Nat
  recipe_id : Option Nat
  title : Option Text
  note : Option Text
  unit_id : Option Nat
  food_id : Option Nat
  original_text : Option Text
  reference_id : Option Nat
  note_normalized : Option Text
  original_text_normalized : Option Text
  orginal_text : Option Text
  table_args : List TableArg
  deriving DecidableEq, Repr

/-- Listener for `"set"` on `IngredientUnitModel.name` (lines 216-221),
parametrized by the normalizer `nf`. -/
def receive_unit_name (nf : Text → Text) (target : IngredientUnitModel)
    (value : Option Text) : IngredientUnitModel :=
  match value with
  | some v => { target with name_normalized := some (nf v) }
  | none => { target with name_normalized := none }

/-- Listener for `"set"` on `IngredientUnitModel.abbreviation` (lines 224-229). -/
def receive_unit_abbreviation (nf : Text → Text) (target : IngredientUnitModel)
    (value : Option Text) : IngredientUnitModel :=
  match value with
  | some v => { target with abbreviation_normalized := some (nf v) }
  | none => { target with abbreviation_normalized := none }

/-- Listener for `"set"` on `IngredientFoodModel.name` (lines 232-237). -/
def receive_food_name (nf : Text → Text) (target : IngredientFoodModel)
    (value : Option Text) : IngredientFoodModel :=
  match value with
  | some v => { target with name_normalized := some (nf v) }
  | none => { target with name_normalized := none }

/-- Listener for `"set"` on `RecipeIngredientModel.note` (lines 240-245). -/
def receive_ingredient_note (nf : Text → Text) (target : RecipeIngredientModel)
    (value : Option Text) : RecipeIngredientModel :=
  match value with
  | some v => { target with note_normalized := some (nf v) }
  | none => { target with note_normalized := none }

/-- Listener for `"set"` on `RecipeIngredientModel.original_text`
(lines 248-253). -/
def receive_ingredient_original_text (nf : Text → Text) (target : RecipeIngredientModel)
    (value : Option Text) : RecipeIngredientModel :=
  match value with
  | some v => { target with original_text_normalized := some (nf v) }
  | none => { target with original_text_normalized := none }

/-- Direct attribute assignment `u.name = value`: the registered set listener
fires and then the raw attribute takes the new value. -/
def setUnitName (nf : Text → Text) (u : IngredientUnitModel) (value : Option Text) :
    IngredientUnitModel :=
  { receive_unit_name nf u value with name := value }

/-- Direct attribute assignment `u.abbreviation = value`. -/
def setUnitAbbreviation (nf : Text → Text) (u : IngredientUnitModel)
    (value : Option Text) : IngredientUnitModel :=
  { receive_unit_abbreviation nf u value with abbreviation := value }

/-- Direct attribute assignment `f.name = value`. -/
def setFoodName (nf : Text → Text) (f : IngredientFoodModel) (value : Option Text) :
    IngredientFoodModel :=
  { receive_food_name nf f value with name := value }

/-- Direct attribute assignment `r.note = value`. -/
def setIngredientNote (nf : Text → Text) (r : RecipeIngredientModel)
    (value : Option Text) : RecipeIngredientModel :=
  { receive_ingredient_note nf r value with note := value }

/-- Direct attribute assignment `r.original_text = value`. -/
def setIngredientOriginalText (nf : Text → Text) (r : RecipeIngredientModel)
    (value : Option Text) : RecipeIngredientModel :=
  { receive_ingredient_original_text nf r value with original_text := value }

/-- `IngredientUnitModel.__init__` under `@auto_init()` (lines 40-86).
The field-map population runs first (Modelled from the spec, section 6: the
external `auto_init` collaborator assigns every known key); per the source
comment at line 170 and spec section 4.5, the set-event rules do not observe
those population assignments, so the shadows start unset.  The body then runs:
it writes `name_normalized` directly, and at line 46 it assigns the normalized
abbreviation to the raw `abbreviation` attribute — an ordinary instrumented
assignment on which the set listener fires — and finally stores the
`tableargs` tuple. -/
def IngredientUnitModel.init (nf : Text → Text) (bindName : String) (group_id : Nat)
    (name description abbreviation : Option Text)
    (use_abbreviation fraction : Option Bool) : IngredientUnitModel :=
  let populated : IngredientUnitModel :=
    { group_id := group_id, name := name, description := description,
      abbreviation := abbreviation, use_abbreviation := use_abbreviation,
      fraction := fraction, name_normalized := none, abbreviation_normalized := none,
      table_args := [] }
  let step1 :=
    match name with
    | some n => { populated with name_normalized := some (nf n) }
    | none => populated
  let step2 :=
    match abbreviation with
    | some a => setUnitAbbreviation nf step1 (some (nf a))
    | none => step1
  { step2 with table_args := unitTableArgs bindName }

/-- `IngredientFoodModel.__init__` under `@api_extras @auto_init()`
(lines 110-140): population first, then the direct write of `name_normalized`,
then the `tableargs` tuple. -/
def IngredientFoodModel.init (nf : Text → Text) (bindName : String) (group_id : Nat)
    (name description : Option Text) (label_id : Option Nat) : IngredientFoodModel :=
  let populated : IngredientFoodModel :=
    { group_id := group_id, name := name, description := description,
      label_id := label_id, name_normalized := none, table_args := [] }
  let step1 :=
    match name with
    | some n => { populated with name_normalized := some (nf n) }
    | none => populated
  { step1 with table_args := foodTableArgs bindName }

/-- `RecipeIngredientModel.__init__` under `@auto_init()` (lines 168-213).
The keyword arguments `note` and `original_text` are mapped columns and are
populated by `auto_init`; `orginal_text` (the misspelled explicit parameter at
line 169) is not a column, so population ignores it and only the body sees it.
The body writes `note_normalized` directly when `note` is non-null, and when
`orginal_text` is non-null it assigns `self.orginal_text` — a stray plain
attribute, not the `original_text` column — so no listener fires and
`original_text_normalized` is never written by the body. -/
def RecipeIngredientModel.init (nf : Text → Text) (bindName : String)
    (position : Option Nat) (title note original_text orginal_text : Option Text) :
    RecipeIngredientModel :=
  let populated : RecipeIngredientModel :=
    { position := position, recipe_id := none, title := title, note := note,
      unit_id := none, food_id := none, original_text := original_text,
      reference_id := none, note_normalized := none, original_text_normalized := none,
      orginal_text := none, table_args := [] }
  let step1 :=
    match note with
    | some n => { populated with note_normalized := some (nf n) }
    | none => populated
  let step2 :=
    match orginal_text with
    | some t => { step1 with orginal_text := some (nf t) }
    | none => step1
  { step2 with table_args := recipeIngredientTableArgs bindName }

/-- The backend capability probe: the source classifies the bound engine by the
check `session.get_bind().name == "postgresql"` (lines 62, 125, 189). -/
inductive CapabilityFamily where
  | Generic
  | TrigramCapable
  deriving DecidableEq, Repr

/-- Capability family of a bound engine, as the source decides it. -/
def capabilityFamily (bindName : String) : CapabilityFamily :=
  if bindName = "postgresql" then .TrigramCapable else .Generic

/-- A direct assignment to one of the two instrumented raw fields of a unit. -/
inductive UnitSetOp where
  | name (value : Option Text)
  | abbreviation (value : Option Text)
  deriving DecidableEq, Repr

/-- A direct assignment to the instrumented raw field of a food. -/
inductive FoodSetOp where
  | name (value : Option Text)
  deriving DecidableEq, Repr

/-- A direct assignment to one of the two instrumented raw fields of an
ingredient line. -/
inductive LineSetOp where
  | note (value : Option Text)
  | original_text (value : Option Text)
  deriving DecidableEq, Repr

/-- Execute one direct raw-field assignment on a unit. -/
def applyUnitSetOp (nf : Text → Text) (u : IngredientUnitModel) :
    UnitSetOp → IngredientUnitModel
  | .name v => setUnitName nf u v
  | .abbreviation v => setUnitAbbreviation nf u v

/-- Execute one direct raw-field assignment on a food. -/
def applyFoodSetOp (nf : Text → Text) (f : IngredientFoodModel) :
    FoodSetOp → IngredientFoodModel
  | .name v => setFoodName nf f v

/-- Execute one direct raw-field assignment on an ingredient line. -/
def applyLineSetOp (nf : Text → Text) (r : RecipeIngredientModel) :
    LineSetOp → RecipeIngredientModel
  | .note v => setIngredientNote nf r v
  | .original_text v => setIngredientOriginalText nf r v

/-- Execute a sequence of direct raw-field assignments on a unit. -/
def applyUnitSetOps (nf : Text → Text) (u : IngredientUnitModel)
    (ops : List UnitSetOp) : IngredientUnitModel :=
  ops.foldl (applyUnitSetOp nf) u

/-- Execute a sequence of direct raw-field assignments on a food. -/
def applyFoodSetOps (nf : Text → Text) (f : IngredientFoodModel)
    (ops : List FoodSetOp) : IngredientFoodModel :=
  ops.foldl (applyFoodSetOp nf) f

/-- Execute a sequence of direct raw-field assignments on an ingredient line. -/
def applyLineSetOps (nf : Text → Text) (r : RecipeIngredientModel)
    (ops : List LineSetOp) : RecipeIngredientModel :=
  ops.foldl (applyLineSetOp nf) r

/-- The shadow of the raw field just assigned by the given op equals the
normalization of that raw field, on a unit. -/
def unitOpSynced (nf : Text → Text) (u : IngredientUnitModel) : UnitSetOp → Prop
  | .name _ => u.name_normalized = NormalizeWith nf u.name
  | .abbreviation _ => u.abbreviation_normalized = NormalizeWith nf u.abbreviation

/-- The shadow of the raw field just assigned by the given op equals the
normalization of that raw field, on a food. -/
def foodOpSynced (nf : Text → Text) (f : IngredientFoodModel) : FoodSetOp → Prop
  | .name _ => f.name_normalized = NormalizeWith nf f.name

/-- The shadow of the raw field just assigned by the given op equals the
normalization of that raw field, on an ingredient line. -/
def lineOpSynced (nf : Text → Text) (r : RecipeIngredientModel) : LineSetOp → Prop
  | .note _ => r.note_normalized = NormalizeWith nf r.note
  | .original_text _ => r.original_text_normalized = NormalizeWith nf r.original_text

/-- Modelled from the spec: the storage engine rejects at commit any set of
rows among which two distinct rows agree on the declared unique key
(name, group), with a null name never equal to anything (spec section 7:
constraint violations are surfaced by the storage engine at commit time). -/
def unitsCommitOk (rows : List IngredientUnitModel) : Prop :=
  rows.Pairwise
    (fun u1 u2 => ¬(u1.name ≠ none ∧ u1.name = u2.name ∧ u1.group_id = u2.group_id))

/-- The stable name of a plain index derived from table and field name. -/
def ixName (table field : String) : String :=
  "ix_" ++ table ++ "_" ++ field ++ "_normalized"

/-- The stable name of a trigram index derived from table and field name. -/
def ginIxName (table field : String) : String :=
  ixName table field ++ "_gin"

/-- The stable name of a uniqueness constraint derived from table, field and
scope name. -/
def ucName (table field scope : String) : String :=
  table ++ "_" ++ field ++ "_" ++ scope ++ "_key"

/-- The names the unit table may use, all instances of the stable patterns. -/
def allowedUnitArgNames : List String :=
  [ucName "ingredient_units" "name" "group_id",
   ixName "ingredient_units" "name", ixName "ingredient_units" "abbreviation",
   ginIxName "ingredient_units" "name", ginIxName "ingredient_units" "abbreviation"]

/-- The names the food table may use, all instances of the stable patterns. -/
def allowedFoodArgNames : List String :=
  [ucName "ingredient_foods" "name" "group_id",
   ixName "ingredient_foods" "name", ginIxName "ingredient_foods" "name"]

/-- The names the ingredient-line table may use, all instances of the stable
patterns. -/
def allowedRecipeIngredientArgNames : List String :=
  [ixName "recipes_ingredients" "note", ixName "recipes_ingredients" "original_text",
   ginIxName "recipes_ingredients" "note", ginIxName "recipes_ingredients" "original_text"]

theorem aux_ofNat_toNat (n : Nat) (h1 : 65 ≤ n) (h2 : n ≤ 90) :
    (Char.ofNat (n + 32)).toNat = n + 32 := by
  interval_cases n <;> decide

theorem foldChar_idem (c : Char) : foldChar (foldChar c) = foldChar c := by
  unfold foldChar
  by_cases h : 65 ≤ c.toNat ∧ c.toNat ≤ 90
  · rw [if_pos h]
    have hh := aux_ofNat_toNat c.toNat h.1 h.2
    rw [if_neg]
    rw [hh]
    omega
  · rw [if_neg h, if_neg h]

theorem mapFold_idem (l : List Char) :
    (l.map foldChar).map foldChar = l.map foldChar := by
  induction l with
  | nil => rfl
  | cons a as ih => simp [foldChar_idem, ih]

theorem normalize_idem (t : Text) : normalize (normalize t) = normalize t :=
  congrArg String.mk (mapFold_idem t.data)

theorem applyUnitSetOp_synced (nf : Text → Text) (u : IngredientUnitModel)
    (op : UnitSetOp) : unitOpSynced nf (applyUnitSetOp nf u op) op := by
  cases op with
  | name v => cases v <;> rfl
  | abbreviation v => cases v <;> rfl

theorem applyFoodSetOp_synced (nf : Text → Text) (f : IngredientFoodModel)
    (op : FoodSetOp) : foodOpSynced nf (applyFoodSetOp nf f op) op := by
  cases op with
  | name v => cases v <;> rfl

theorem applyLineSetOp_synced (nf : Text → Text) (r : RecipeIngredientModel)
    (op : LineSetOp) : lineOpSynced nf (applyLineSetOp nf r op) op := by
  cases op with
  | note v => cases v <;> rfl
  | original_text v => cases v <;> rfl

theorem foldl_take_succ {α β : Type} (f : β → α → β) :
    ∀ (l : List α) (i : Nat) (h : i < l.length) (b : β),
      (l.take (i + 1)).foldl f b = f ((l.take i).foldl f b) (l.get ⟨i, h⟩) := by
  intro l
  induction l with
  | nil => intro i h; exact absurd h (by simp)
  | cons a as ih =>
    intro i h b
    cases i with
    | zero => simp
    | succ j =>
      simp only [List.take, List.foldl, List.get]
      exact ih j (by simpa using h) (f b a)

/-- A concrete unit used to instantiate universally quantified statements. -/
def exampleUnit : IngredientUnitModel :=
  IngredientUnitModel.init normalize "sqlite" 1 (some "Tablespoon") none none none none

/-- C1: for each registered (raw, shadow) pair — Unit.name, Unit.abbreviation,
Food.name, line note, line original text — after each direct assignment in any
sequence of direct assignments on any instance, the shadow field equals the
normalization of the raw field's new value. -/
theorem C1_sync_invariant_after_each_direct_assignment :
    (∀ (nf : Text → Text) (u : IngredientUnitModel) (ops : List UnitSetOp)
        (i : Nat) (h : i < ops.length),
      unitOpSynced nf (applyUnitSetOps nf u (ops.take (i + 1))) (ops.get ⟨i, h⟩)) ∧
    (∀ (nf : Text → Text) (f : IngredientFoodModel) (ops : List FoodSetOp)
        (i : Nat) (h : i < ops.length),
      foodOpSynced nf (applyFoodSetOps nf f (ops.take (i + 1))) (ops.get ⟨i, h⟩)) ∧
    (∀ (nf : Text → Text) (r : RecipeIngredientModel) (ops : List LineSetOp)
        (i : Nat) (h : i < ops.length),
      lineOpSynced nf (applyLineSetOps nf r (ops.take (i + 1))) (ops.get ⟨i, h⟩)) := by
  refine ⟨?_, ?_, ?_⟩
  · intro nf u ops i h
    unfold applyUnitSetOps
    rw [foldl_take_succ _ _ _ h]
    exact applyUnitSetOp_synced nf _ _
  · intro nf f ops i h
    unfold applyFoodSetOps
    rw [foldl_take_succ _ _ _ h]
    exact applyFoodSetOp_synced nf _ _
  · intro nf r ops i h
    unfold applyLineSetOps
    rw [foldl_take_succ _ _ _ h]
    exact applyLineSetOp_synced nf _ _

/-- Witness for C1 at a concrete instance, sequence and position. -/
theorem C1_sync_invariant_witness :
    unitOpSynced normalize
      (applyUnitSetOps normalize exampleUnit [UnitSetOp.name (some "Tablespoon")])
      (UnitSetOp.name (some "Tablespoon")) :=
  C1_sync_invariant_after_each_direct_assignment.1 normalize exampleUnit
    [UnitSetOp.name (some "Tablespoon")] 0 (by decide)

/-- C2 fails on the code for RecipeIngredientModel under postgresql: the gin
index named after `original_text_normalized` is declared over the raw column
`original_text` (ingredient.py line 203), so the shadow field
`original_text_normalized` has its plain index but zero trigram indexes, and
the stray trigram index sits on the raw column instead. -/
theorem C2_trigram_index_misplaced_for_original_text :
    (recipeIngredientTableArgs "postgresql").countP
        (TableArg.isTrigramIndexOn "original_text_normalized") = 0 ∧
    (recipeIngredientTableArgs "postgresql").countP
        (TableArg.isPlainIndexOn "original_text_normalized") = 1 ∧
    (recipeIngredientTableArgs "postgresql").countP
        (TableArg.isTrigramIndexOn "note_normalized") = 1 ∧
    TableArg.index "ix_recipes_ingredients_original_text_normalized_gin" ["original_text"]
        false (some "gin") [("original_text_normalized", "gin_trgm_ops")]
      ∈ recipeIngredientTableArgs "postgresql" := by
  refine ⟨by decide, by decide, by decide, by decide⟩

/-- C3 fails on the code: with a non-null original text in the field map, the
population assigns the raw column silently (the set rules do not observe it,
source comment at line 170), and the defensive recompute at line 175 writes to
the stray misspelled attribute `orginal_text`, never to
`original_text_normalized` — which therefore stays null even though the raw
column holds the text and its normalization is non-null. -/
theorem C3_defensive_recompute_never_writes_original_text_normalized :
    (RecipeIngredientModel.init normalize "sqlite" none none none
        (some "2 Cloves, minced") none).original_text_normalized = none ∧
    (RecipeIngredientModel.init normalize "sqlite" none none none
        (some "2 Cloves, minced") none).original_text = some "2 Cloves, minced" ∧
    Normalize (some "2 Cloves, minced") = some "2 cloves, minced" :=
  ⟨rfl, rfl, rfl⟩

/-- C4 counterexample: at the concrete engine name "cockroachdb" — recognized
by neither of the two families the spec names — index-plan construction does
not fail: it completes and silently emits the generic-only plan with zero
trigram indexes, the exact silent omission the claim says cannot happen. -/
theorem C4_counterexample_silent_generic_on_unknown_engine :
    unitTableArgs "cockroachdb" = unitTableArgs "sqlite" ∧
    (unitTableArgs "cockroachdb").countP TableArg.isTrigramIndex = 0 ∧
    (IngredientUnitModel.init normalize "cockroachdb" 1 (some "Cup") none none
        none none).table_args = unitTableArgs "cockroachdb" :=
  ⟨by decide, by decide, rfl⟩

/-- C4 amended: for every engine name other than postgresql — including
unrecognized engines — the probe reports Generic and index-plan construction
succeeds silently with only the unconditional constraints and plain indexes,
zero trigram indexes; no failure occurs at schema-setup time. -/
theorem C4_amended_silent_generic_fallback (bindName : String)
    (h : bindName ≠ "postgresql") :
    capabilityFamily bindName = CapabilityFamily.Generic ∧
    unitTableArgs bindName = unitTableArgs "sqlite" ∧
    foodTableArgs bindName = foodTableArgs "sqlite" ∧
    recipeIngredientTableArgs bindName = recipeIngredientTableArgs "sqlite" ∧
    (unitTableArgs bindName).countP TableArg.isTrigramIndex = 0 ∧
    (foodTableArgs bindName).countP TableArg.isTrigramIndex = 0 ∧
    (recipeIngredientTableArgs bindName).countP TableArg.isTrigramIndex = 0 := by
  have hu : unitTableArgs bindName = unitTableArgs "sqlite" := by
    simp [unitTableArgs, h]
  have hf : foodTableArgs bindName = foodTableArgs "sqlite" := by
    simp [foodTableArgs, h]
  have hr : recipeIngredientTableArgs bindName = recipeIngredientTableArgs "sqlite" := by
    simp [recipeIngredientTableArgs, h]
  refine ⟨by simp [capabilityFamily, h], hu, hf, hr, ?_, ?_, ?_⟩
  · rw [hu]; decide
  · rw [hf]; decide
  · rw [hr]; decide

/-- Witness for C4 amended at the concrete engine name "mysql". -/
theorem C4_amended_witness :
    capabilityFamily "mysql" = CapabilityFamily.Generic ∧
    unitTableArgs "mysql" = unitTableArgs "sqlite" ∧
    foodTableArgs "mysql" = foodTableArgs "sqlite" ∧
    recipeIngredientTableArgs "mysql" = recipeIngredientTableArgs "sqlite" ∧
    (unitTableArgs "mysql").countP TableArg.isTrigramIndex = 0 ∧
    (foodTableArgs "mysql").countP TableArg.isTrigramIndex = 0 ∧
    (recipeIngredientTableArgs "mysql").countP TableArg.isTrigramIndex = 0 :=
  C4_amended_silent_generic_fallback "mysql" (by decide)

/-- C5: on every entity with a (raw, shadow) pair, directly assigning null to
the raw field leaves the shadow field null, whatever it held before. -/
theorem C5_null_propagation (nf : Text → Text) :
    (∀ u : IngredientUnitModel,
      (setUnitName nf u none).name_normalized = none ∧
      (setUnitAbbreviation nf u none).abbreviation_normalized = none) ∧
    (∀ f : IngredientFoodModel, (setFoodName nf f none).name_normalized = none) ∧
    (∀ r : RecipeIngredientModel,
      (setIngredientNote nf r none).note_normalized = none ∧
      (setIngredientOriginalText nf r none).original_text_normalized = none) :=
  ⟨fun _ => ⟨rfl, rfl⟩, fun _ => rfl, fun _ => ⟨rfl, rfl⟩⟩

/-- C6 fails on the code: constructing a unit with abbreviation "Tbsp"
(ingredient.py line 46 assigns the normalized text to the raw `abbreviation`
attribute) leaves the raw abbreviation equal to "tbsp", not to the "Tbsp" the
caller supplied. -/
theorem C6_constructor_overwrites_raw_abbreviation :
    (IngredientUnitModel.init normalize "sqlite" 1 none none (some "Tbsp") none
        none).abbreviation = some "tbsp" ∧
    some ("tbsp" : Text) ≠ some ("Tbsp" : Text) :=
  ⟨rfl, by decide⟩

/-- C7: the (name, group) uniqueness constraints of units and foods are in the
emitted plan for every engine name, and under the modelled commit check two
units with one name in two groups coexist while two units with one name in one
group are rejected. -/
theorem C7_unconditional_unique_constraint_and_scoping :
    (∀ bindName : String,
      TableArg.uniqueConstraint ["name", "group_id"]
          "ingredient_units_name_group_id_key" ∈ unitTableArgs bindName ∧
      TableArg.uniqueConstraint ["name", "group_id"]
          "ingredient_foods_name_group_id_key" ∈ foodTableArgs bindName) ∧
    (∀ (u1 u2 : IngredientUnitModel) (n : Text),
      u1.name = some n → u2.name = some n →
      (u1.group_id ≠ u2.group_id → unitsCommitOk [u1, u2]) ∧
      (u1.group_id = u2.group_id → ¬ unitsCommitOk [u1, u2])) := by
  constructor
  · intro bindName
    constructor
    · by_cases hb : bindName = "postgresql" <;> simp [unitTableArgs, hb]
    · by_cases hb : bindName = "postgresql" <;> simp [foodTableArgs, hb]
  · intro u1 u2 n h1 h2
    constructor
    · intro hg
      unfold unitsCommitOk
      refine List.Pairwise.cons ?_ (List.pairwise_singleton _ _)
      intro u hu
      rw [List.mem_singleton] at hu
      subst hu
      rintro ⟨_, _, hgid⟩
      exact hg hgid
    · intro hg hok
      unfold unitsCommitOk at hok
      rcases List.pairwise_cons.mp hok with ⟨hrel, _⟩
      exact hrel u2 (List.mem_singleton.mpr rfl)
        ⟨by simp [h1], h1.trans h2.symm, hg⟩

/-- Witness for C7 at concrete engine name and concrete units. -/
theorem C7_uniqueness_witness :
    (TableArg.uniqueConstraint ["name", "group_id"]
        "ingredient_units_name_group_id_key" ∈ unitTableArgs "sqlite" ∧
     TableArg.uniqueConstraint ["name", "group_id"]
        "ingredient_foods_name_group_id_key" ∈ foodTableArgs "sqlite") ∧
    unitsCommitOk
      [IngredientUnitModel.init normalize "sqlite" 1 (some "cup") none none none none,
       IngredientUnitModel.init normalize "sqlite" 2 (some "cup") none none none none] ∧
    ¬ unitsCommitOk
      [IngredientUnitModel.init normalize "sqlite" 1 (some "cup") none none none none,
       IngredientUnitModel.init normalize "sqlite" 1 (some "cup") none none none none] := by
  refine ⟨C7_unconditional_unique_constraint_and_scoping.1 "sqlite", ?_, ?_⟩
  · exact (C7_unconditional_unique_constraint_and_scoping.2
      (IngredientUnitModel.init normalize "sqlite" 1 (some "cup") none none none none)
      (IngredientUnitModel.init normalize "sqlite" 2 (some "cup") none none none none)
      "cup" rfl rfl).1 (by decide)
  · exact (C7_unconditional_unique_constraint_and_scoping.2
      (IngredientUnitModel.init normalize "sqlite" 1 (some "cup") none none none none)
      (IngredientUnitModel.init normalize "sqlite" 1 (some "cup") none none none none)
      "cup" rfl rfl).2 rfl

/-- C8: the modelled normalizer is idempotent on text and on nullable text,
and maps null to null; being a pure Lean function, it is deterministic and
side-effect-free by construction. -/
theorem C8_normalizer_deterministic_idempotent_null :
    (∀ t : Text, normalize (normalize t) = normalize t) ∧
    (∀ t : Option Text, Normalize (Normalize t) = Normalize t) ∧
    Normalize none = none := by
  refine ⟨normalize_idem, ?_, rfl⟩
  intro t
  cases t with
  | none => rfl
  | some v =>
    show some (normalize (normalize v)) = some (normalize v)
    rw [normalize_idem]

/-- C9: any two engine names with the same capability family receive exactly
the same emitted plan for every entity, and every emitted index or constraint
name is an instance of the stable patterns derived from table and field name. -/
theorem C9_plan_pure_function_and_stable_names (d1 d2 : String)
    (h : capabilityFamily d1 = capabilityFamily d2) :
    (unitTableArgs d1 = unitTableArgs d2 ∧
     foodTableArgs d1 = foodTableArgs d2 ∧
     recipeIngredientTableArgs d1 = recipeIngredientTableArgs d2) ∧
    ((unitTableArgs d1).all
        (fun a => allowedUnitArgNames.contains a.argName) = true ∧
     (foodTableArgs d1).all
        (fun a => allowedFoodArgNames.contains a.argName) = true ∧
     (recipeIngredientTableArgs d1).all
        (fun a => allowedRecipeIngredientArgNames.contains a.argName) = true) := by
  by_cases h1 : d1 = "postgresql"
  · by_cases h2 : d2 = "postgresql"
    · subst h1; subst h2
      exact ⟨⟨rfl, rfl, rfl⟩, by decide, by decide, by decide⟩
    · simp [capabilityFamily, h1, h2] at h
  · by_cases h2 : d2 = "postgresql"
    · simp [capabilityFamily, h1, h2] at h
    · have hu : unitTableArgs d1 = unitTableArgs "sqlite" := by
        simp [unitTableArgs, h1]
      have hu2 : unitTableArgs d2 = unitTableArgs "sqlite" := by
        simp [unitTableArgs, h2]
      have hf : foodTableArgs d1 = foodTableArgs "sqlite" := by
        simp [foodTableArgs, h1]
      have hf2 : foodTableArgs d2 = foodTableArgs "sqlite" := by
        simp [foodTableArgs, h2]
      have hr : recipeIngredientTableArgs d1 = recipeIngredientTableArgs "sqlite" := by
        simp [recipeIngredientTableArgs, h1]
      have hr2 : recipeIngredientTableArgs d2 = recipeIngredientTableArgs "sqlite" := by
        simp [recipeIngredientTableArgs, h2]
      rw [hu, hu2, hf, hf2, hr, hr2]
      exact ⟨⟨rfl, rfl, rfl⟩, by decide, by decide, by decide⟩

/-- Witness for C9 at two concrete engine names of the Generic family. -/
theorem C9_plan_witness :
    (unitTableArgs "sqlite" = unitTableArgs "mysql" ∧
     foodTableArgs "sqlite" = foodTableArgs "mysql" ∧
     recipeIngredientTableArgs "sqlite" = recipeIngredientTableArgs "mysql") ∧
    ((unitTableArgs "sqlite").all
        (fun a => allowedUnitArgNames.contains a.argName) = true ∧
     (foodTableArgs "sqlite").all
        (fun a => allowedFoodArgNames.contains a.argName) = true ∧
     (recipeIngredientTableArgs "sqlite").all
        (fun a => allowedRecipeIngredientArgNames.contains a.argName) = true) :=
  C9_plan_pure_function_and_stable_names "sqlite" "mysql" (by decide)

/-- C10: with an idempotent normalizer, a unit constructed with a non-null
abbreviation ends with `abbreviation_normalized` equal to the normalized
abbreviation: the body assigns the normalized text to the raw attribute, the
set rule fires and stores the doubly normalized text, and idempotence collapses
it. -/
theorem C10_abbreviation_shadow_correct_under_idempotence (nf : Text → Text)
    (hidem : ∀ t : Text, nf (nf t) = nf t) (bindName : String) (gid : Nat)
    (name description : Option Text) (a : Text) (ua fr : Option Bool) :
    (IngredientUnitModel.init nf bindName gid name description (some a) ua
        fr).abbreviation_normalized = some (nf a) := by
  cases name <;>
    simp [IngredientUnitModel.init, setUnitAbbreviation, receive_unit_abbreviation, hidem]

/-- Witness for C10 at the modelled normalizer and a concrete abbreviation. -/
theorem C10_abbreviation_witness :
    (IngredientUnitModel.init normalize "sqlite" 1 none none (some "Tbsp") none
        none).abbreviation_normalized = some (normalize "Tbsp") :=
  C10_abbreviation_shadow_correct_under_idempotence normalize normalize_idem
    "sqlite" 1 none none "Tbsp" none none

end Mealie
